import Mathlib

/-!
# Verification of the marcia `Kernels` covariance-assembly engine

Shallow embedding of `src/marcia/Archive/kernels.py` (class `Kernels`):
the constructor (`__init__`), the call-time covariance assembly
(`__call__`), the basis functions (`gMdef`, `gdMdef`), and the parallel
grid builder (`KcMM`).

Conventions:
* Python floats are modelled as elements of a `LinearOrderedField`
  (instantiated at `ℚ` for concrete evaluations, at `ℝ` where the
  mathematical content needs `Real.exp`).
* Fallible Python code is modelled in `Except PyError`.
* Python `dict`s keyed by f-strings are modelled as association lists
  over actual `String` keys, with insert-or-overwrite semantics.
* External numerical routines (`scipy.integrate.quad`,
  `scipy.special.*`, `marcia.backend.kernel`) are abstracted as
  function parameters: every theorem below holds for all of them.
-/

namespace Marcia

/-- The Python exceptions raised by the code under study.  `keyError`
carries the dictionary key whose lookup failed. -/
inductive PyError where
  | valueError : PyError
  | keyError (key : String) : PyError
  | indexError : PyError
  | nameError (name : String) : PyError
  | typeError : PyError
  deriving DecidableEq, Repr

/-- The smoothness parameter `nu`, as read from the configuration.  The
source mixes a string sentinel (`'0.0'`) with numeric values, so the
model is a tagged union; a Python `==` between a string and a number is
`False`, which the derived decidable equality on this type reproduces. -/
inductive Nu where
  | str (s : String)
  | num (q : ℚ)
  deriving DecidableEq, Repr

instance : Inhabited Nu := ⟨Nu.str ""⟩

/-- The f-string dictionary key `f't_{i}{j}'` used for `self.CovMat`
and `self.data_tau`. -/
def tkey (i j : Nat) : String := "t_" ++ toString i ++ toString j

/-- Python `dict` lookup (`d[k]` on the right-hand side):
`none` models a `KeyError`. -/
def dictFind {v : Type} (d : List (String × v)) (k : String) : Option v :=
  (d.find? (fun p => p.1 = k)).map (fun p => p.2)

/-- Python `dict` store (`d[k] = x`): overwrite in place if the key is
present, append otherwise. -/
def dictInsert {v : Type} (d : List (String × v)) (k : String) (x : v) :
    List (String × v) :=
  if d.any (fun p => p.1 = k) then
    d.map (fun p => if p.1 = k then (k, x) else p)
  else
    d ++ [(k, x)]

section Numeric

variable {α : Type} [LinearOrderedField α]

/-- `np.linspace(lo, hi, n)`: `n` evenly spaced points including both
endpoints (`x_k = lo + k·(hi−lo)/(n−1)`; for `n = 1` numpy returns
`[lo]`, which the division-by-zero convention of a field reproduces). -/
def linspace (lo hi : α) (n : Nat) : List α :=
  (List.range n).map (fun k => lo + (hi - lo) * (k : α) / ((n : α) - 1))

/-- `self.data[i][:, None] - self.data[j][None, :]`: the matrix of
pairwise differences between two 1-D observation arrays. -/
def lagMat (xs ys : List α) : List (List α) :=
  xs.map (fun x => ys.map (fun y => x - y))

end Numeric

/-- `list(itertools.product(xs, ys, zs))`: the Cartesian product in
row-major enumeration order (last factor varies fastest). -/
def prod3 {α : Type} (xs ys zs : List α) : List (α × α × α) :=
  xs.flatMap (fun a => ys.flatMap (fun b => zs.map (fun c => (a, b, c))))

/-- The dense array built by `Kernels.KcMM`, flattened in the row-major
(C) order that `np.array(...).reshape((len(tau), len(l2), len(l1)))`
preserves: `pool.map(self.gMMdef_integrand, params)` returns the
integrand's value for every member of
`itertools.product(tau_values, l2_values, l1_values)`, in dispatch
order.  `f` abstracts `gMMdef_integrand` (a `scipy.integrate.quad`
call, external numerics). -/
def kcmmGrid {α β : Type} (f : α × α × α → β) (tauv l2v l1v : List α) :
    List β :=
  (prod3 tauv l2v l1v).map f

/-- Entry `(a, b, c)` of a flat row-major 3-D array of shape
`(n1, n2, n3)` (the reshape in `KcMM`): flat index
`a·n2·n3 + b·n3 + c`. -/
def gridEntry {β : Type} [Inhabited β] (g : List β) (n2 n3 a b c : Nat) : β :=
  g.getD (a * n2 * n3 + b * n3 + c) default

/-- A parallel `pool.map` execution: work item `k` is dispatched for
every index of `xs`; workers finish in the order given by `order`
(an arbitrary interleaving), and each result is stored at its dispatch
index, exactly as `multiprocessing.Pool.map` does.  Slots still
awaiting a result hold `none`. -/
def applyCompletion {α β : Type} (f : α → β) (xs : List α)
    (order : List Nat) : List (Option β) :=
  order.foldl (fun acc k => acc.set k ((xs[k]?).map f))
    (List.replicate xs.length none)

/-- Model of `scipy.interpolate.RegularGridInterpolator`: the per-axis
coordinate arrays, the dense values flattened row-major, and the two
construction flags `bounds_error` / `fill_value` appearing in the
source.  `fillValue = none` models `fill_value=None` (extrapolate). -/
structure RGInterp (α : Type) where
  axes : List (List α)
  values : List α
  boundsError : Bool
  fillValue : Option α
  deriving DecidableEq

/-- One component of a query point handed to an interpolator: the
source's call site passes the heterogeneous list
`[pars[i,1]*pars[j,1], self.data_tau[...]]`, i.e. a scalar next to a
whole matrix. -/
inductive QComp (α : Type) where
  | s (x : α)
  | m (rows : List (List α))
  deriving DecidableEq

section Interp

variable {α : Type} [LinearOrderedField α]

/-- `lo + t * (hi - lo)` — one linear blend. -/
def lerp (lo hi t : α) : α := lo + (hi - lo) * t

/-- The interpolation cell along one axis for query coordinate `x`:
index of the interval `[axis[k], axis[k+1]]`, found by counting grid
nodes `≤ x` and clamping to `[0, len−2]` — out-of-range coordinates
reuse the first/last cell, which is `scipy`'s extrapolation rule when
`fill_value=None`. -/
def findCell (axis : List α) (x : α) : Nat :=
  min (max ((axis.countP (fun a => a ≤ x)) - 1) 0) (axis.length - 2)

/-- The normalised distance of `x` into cell `k` of `axis`. -/
def cellT (axis : List α) (k : Nat) (x : α) : α :=
  (x - axis.getD k 0) / (axis.getD (k + 1) 0 - axis.getD k 0)

/-- Trilinear interpolation (with linear extrapolation outside the
grid) of a flat row-major value array over three coordinate axes: the
multilinear rule of `RegularGridInterpolator` specialised to the three
axes every grid in this program has. -/
def trilinear (ax1 ax2 ax3 : List α) (vals : List α) (x y z : α) : α :=
  let n2 := ax2.length
  let n3 := ax3.length
  let i := findCell ax1 x
  let j := findCell ax2 y
  let k := findCell ax3 z
  let t := cellT ax1 i x
  let u := cellT ax2 j y
  let v := cellT ax3 k z
  let g : Nat → Nat → Nat → α := fun a b c =>
    vals.getD (a * n2 * n3 + b * n3 + c) 0
  lerp
    (lerp (lerp (g i j k) (g i j (k+1)) v) (lerp (g i (j+1) k) (g i (j+1) (k+1)) v) u)
    (lerp (lerp (g (i+1) j k) (g (i+1) j (k+1)) v) (lerp (g (i+1) (j+1) k) (g (i+1) (j+1) (k+1)) v) u)
    t

/-- Is every component of a query a scalar? -/
def allScalar {α : Type} (q : List (QComp α)) : Bool :=
  q.all (fun c => match c with | .s _ => true | .m _ => false)

/-- The scalar carried by a component (`0` for a matrix component;
only read on all-scalar queries). -/
def compScalar (c : QComp α) : α :=
  match c with | .s x => x | .m _ => 0

/-- Is scalar `x` outside the span of `axis`? -/
def outsideAxis (axis : List α) (x : α) : Bool :=
  match axis with
  | [] => false
  | a :: rest => x < a ∨ (rest.getLastD a) < x

/-- Evaluating a `RegularGridInterpolator` at one query point, per the
scipy contract: the point must supply exactly one coordinate per grid
axis (otherwise `ValueError` — this also covers the source's
heterogeneous `[scalar, matrix]` argument, which can never be shaped
into points of the grid's dimension); when `bounds_error` is set, an
out-of-range coordinate raises, and with `bounds_error=False`,
`fill_value=None` the interpolator extrapolates instead of failing. -/
def RGInterp.call (itp : RGInterp α) (q : List (QComp α)) :
    Except PyError α :=
  if q.length = itp.axes.length ∧ allScalar q then
    let coords := q.map compScalar
    if itp.boundsError ∧
        (List.zip itp.axes coords).any (fun p => outsideAxis p.1 p.2) then
      .error .valueError
    else
      .ok (trilinear (itp.axes.getD 0 []) (itp.axes.getD 1 [])
            (itp.axes.getD 2 []) itp.values (coords.getD 0 0)
            (coords.getD 1 0) (coords.getD 2 0))
  else
    .error .valueError

/-- `Kernels.KcMM(l1_values, l2_values, tau_values)`: build the dense
integral array over `itertools.product(tau_values, l2_values,
l1_values)` (dispatched to a `Pool`, reassembled in dispatch order —
see `applyCompletion`), reshape it row-major, and wrap it in a
`RegularGridInterpolator` on axes `(tau, l2, l1)` with
`bounds_error=False, fill_value=None`.  `f` abstracts
`gMMdef_integrand`. -/
def KcMM (f : α × α × α → α) (l1v l2v tauv : List α) : RGInterp α :=
  { axes := [tauv, l2v, l1v]
    values := kcmmGrid f tauv l2v l1v
    boundsError := false
    fillValue := none }

end Interp

/-- Per-task configuration entries `MTGP[f'Task_{i+1}']` consumed by
the constructor: the length-scale bounds used to size the grid. -/
structure TaskCfg (α : Type) where
  lmin : α
  lmax : α
  deriving DecidableEq

instance {α : Type} [Inhabited α] : Inhabited (TaskCfg α) :=
  ⟨⟨default, default⟩⟩

/-- The configuration dictionary `MTGP` as consumed by
`Kernels.__init__` (produced by the `GPconfig` collaborator, which is
outside this core): task count, grid resolution, per-task smoothness
values and length-scale bounds. -/
structure GPCfg (α : Type) where
  nTasks : Nat
  nPoints : Nat
  nus : List Nu
  tasks : List (TaskCfg α)
  deriving DecidableEq

/-- The dictionaries a `Kernels` instance holds after construction:
`self.CovMat` (interpolators) and `self.data_tau` (lag matrices), both
keyed by the `f't_{i}{j}'` strings, plus `self.nTasks`. -/
structure KState (α : Type) where
  nTasks : Nat
  covMat : List (String × RGInterp α)
  data_tau : List (String × List (List α))
  deriving DecidableEq

section KernelsModel

variable {α : Type} [LinearOrderedField α]

/-- One iteration of the nested `for i / for j` loop in
`Kernels.__init__`.  For `i ≤ j` the pair's grid is built
(`self.CovMat[f't_{i}{j}'] = self.KcMM(l1_values, l2_values,
tau_values)`, with `l1` sized from task `i`, `l2` from task `j`, lag
domain `linspace(-10, 10, n_points)`) and the lag matrix stored
(`self.data_tau[f't_{i}{j}'] = self.data[i][:,None] -
self.data[j][None,:]`).  Otherwise the source executes, in this order,
`self.data_tau[f't_{j}{i}'] = self.data_tau[f't_{i}{j}']` and
`self.CovMat[f't_{j}{i}'] = np.transpose(self.CovMat[f't_{i}{j}'])`;
each right-hand side is a dictionary read that raises `KeyError` when
the key is absent.  (`np.transpose` on the interpolator is modelled as
the identity: the dictionary holds interpolator objects, and no
theorem below depends on what `np.transpose` returns for one; the read
of the missing key decides every claim about this branch.)
`integrand i j` abstracts `gMMdef_integrand` evaluated with
`self.nu1 = self.nus[i]`, `self.nu2 = self.nus[j]`. -/
def initStep (cfg : GPCfg α) (integrand : Nat → Nat → α × α × α → α)
    (data : List (List α)) (i j : Nat) (st : KState α) :
    Except PyError (KState α) :=
  if i ≤ j then
    let ti := cfg.tasks.getD i ⟨0, 0⟩
    let tj := cfg.tasks.getD j ⟨0, 0⟩
    let l1v := linspace ti.lmin ti.lmax cfg.nPoints
    let l2v := linspace tj.lmin tj.lmax cfg.nPoints
    let tauv := linspace (-10) 10 cfg.nPoints
    .ok { st with
      covMat := dictInsert st.covMat (tkey i j) (KcMM (integrand i j) l1v l2v tauv)
      data_tau := dictInsert st.data_tau (tkey i j)
        (lagMat (data.getD i []) (data.getD j [])) }
  else
    match dictFind st.data_tau (tkey i j) with
    | none => .error (.keyError (tkey i j))
    | some tm =>
      let st := { st with data_tau := dictInsert st.data_tau (tkey j i) tm }
      match dictFind st.covMat (tkey i j) with
      | none => .error (.keyError (tkey i j))
      | some cm =>
        .ok { st with covMat := dictInsert st.covMat (tkey j i) cm }

/-- `Kernels.__init__(data, filename)` after the configuration has
been read: checks `len(self.data) != self.nmodel` (raising
`ValueError` before any grid work is dispatched) and then runs the
nested pair loop `for i in range(nmodel): for j in range(nmodel)`. -/
def kernelsInit (cfg : GPCfg α) (integrand : Nat → Nat → α × α × α → α)
    (data : List (List α)) : Except PyError (KState α) :=
  if data.length ≠ cfg.nTasks then
    .error .valueError
  else
    (List.range cfg.nTasks).foldlM
      (fun st i =>
        (List.range cfg.nTasks).foldlM
          (fun st j => initStep cfg integrand data i j st) st)
      { nTasks := cfg.nTasks, covMat := [], data_tau := [] }

/-- `pars[i, k]` on a 2-D parameter matrix; an out-of-range row or
column raises `IndexError`. -/
def parsGet (pars : List (List α)) (i k : Nat) : Except PyError α :=
  match pars[i]? with
  | none => .error .indexError
  | some row =>
    match row[k]? with
    | none => .error .indexError
    | some x => .ok x

/-- Scaling a block elementwise by an amplitude product. -/
def scaleMat (c : α) (m : List (List α)) : List (List α) :=
  m.map (fun row => row.map (fun x => c * x))

/-- `np.block`: concatenate each row of blocks along columns, then
stack the rows (blocks are conformable in the intended use). -/
def hcatBlocks (bs : List (List (List α))) : List (List α) :=
  match bs with
  | [] => []
  | [b] => b
  | b :: rest => List.zipWith (fun r s => r ++ s) b (hcatBlocks rest)

/-- `np.block` over a full grid of blocks. -/
def npBlock (rows : List (List (List (List α)))) : List (List α) :=
  (rows.map hcatBlocks).flatten

/-- One block of `Kernels.__call__`'s comprehension, for inner index
`i` and outer index `j` (the source iterates `for i` inside `for j`):
`pars[i,0] * pars[j,0] * self.CovMat[f't_{i}{j}']([pars[i,1] *
pars[j,1], self.data_tau[f't_{i}{j}']])`, evaluated left to right.
The interpolator receives a two-component query — the length-scale
product next to the whole lag matrix. -/
def callBlock (st : KState α) (pars : List (List α)) (i j : Nat) :
    Except PyError (List (List α)) := do
  let pi0 ← parsGet pars i 0
  let pj0 ← parsGet pars j 0
  let itp ← match dictFind st.covMat (tkey i j) with
    | none => Except.error (PyError.keyError (tkey i j))
    | some itp => Except.ok itp
  let li1 ← parsGet pars i 1
  let lj1 ← parsGet pars j 1
  let tm ← match dictFind st.data_tau (tkey i j) with
    | none => Except.error (PyError.keyError (tkey i j))
    | some tm => Except.ok tm
  let v ← itp.call [QComp.s (li1 * lj1), QComp.m tm]
  pure (scaleMat (pi0 * pj0) [[v]])

/-- `Kernels.__call__(pars)`: build the nested list of blocks (outer
comprehension over `j`, inner over `i`) and assemble it with
`np.block`.  There is no shape validation of `pars` anywhere in the
method: rows are only ever read at indices `i < nTasks`. -/
def kernelsCall (st : KState α) (pars : List (List α)) :
    Except PyError (List (List α)) := do
  let rows ← (List.range st.nTasks).mapM (fun j =>
    (List.range st.nTasks).mapM (fun i => callBlock st pars i j))
  pure (npBlock rows)

end KernelsModel

/-- The names bound at module level in `src/marcia/Archive/kernels.py`:
the imports and the `Kernels` class itself.  The helpers `_spkv_` and
`_spgamma_` are defined only inside the class body, so they are
attributes of `Kernels`, not module globals; nor are they Python
builtins or locals of the methods that mention them bare. -/
def kernelsModuleGlobals : List String :=
  ["sys", "cmath", "np", "sp", "const", "time", "configparser",
   "interp1d", "quad", "RegularGridInterpolator", "Pool", "itertools",
   "Data", "GPconfig", "kernel", "Kernels"]

/-- Python name resolution for a bare name inside a method of
`Kernels`: method locals and the listed module globals (then builtins)
are searched; an unbound name raises `NameError`.  The two names this
model is applied to are not locals, not module globals and not
builtins. -/
def resolveBare (n : String) : Except PyError Unit :=
  if n ∈ kernelsModuleGlobals then .ok () else .error (.nameError n)

/-- External special functions, abstracted: `scipy.special.kv`,
`scipy.special.gamma`, and — modelled from the spec, since
`marcia/backend/kernel.py` is not part of the sources —
`marcia.backend.kernel.gMdef` (returning a scalar prefactor for the
`5/2` and `7/2` branches and a triple `A, B, C` for the general
branch) and `marcia.backend.kernel.gdMdef` (returning a pair `A, D`).
Every theorem about `gMdef`/`gdMdef` below holds for all values of
these functions. -/
structure SpecialFns where
  kv : ℝ → ℝ → ℝ
  gammaFn : ℝ → ℝ
  bkGMdef : ℝ → ℝ → Nu → ℝ
  bkGMdef3 : ℝ → ℝ → Nu → ℝ × ℝ × ℝ
  bkGdMdef : ℝ → ℝ → ℚ → ℝ × ℝ

/-- The branch of `Kernels.gMdef` selected for a smoothness value, in
the source's test order: `nu == '0.0'` (string sentinel), `nu == 5/2`,
`nu == 7/2`, else the generalised-Matérn branch. -/
inductive GMBranch where
  | squaredExp
  | matern52
  | matern72
  | general
  deriving DecidableEq, Repr

/-- The dispatch of `Kernels.gMdef`'s `if/elif` chain. -/
def gMdefBranch (nu : Nu) : GMBranch :=
  if nu = Nu.str "0.0" then .squaredExp
  else if nu = Nu.num (5/2) then .matern52
  else if nu = Nu.num (7/2) then .matern72
  else .general

/-- `Kernels.gMdef(tau, nu, l1)`.  `x = np.abs(tau)`; the squared
exponential branch returns `np.exp(-(x**2)/(2*l1**2))`; the `5/2`
branch evaluates `kernel.gMdef(tau, l1, nu)` and then resolves the
bare name `_spkv_`; the `7/2` branch returns `kernel.gMdef(tau, l1,
nu)`; the general branch unpacks `A, B, C = kernel.gMdef(tau, l1, nu)`
and then resolves the bare name `_spgamma_`.  Where a bare-name
resolution fails, the subsequent arithmetic of that branch (written
here with the functions the class methods would have supplied) is dead
code. -/
noncomputable def gMdef (S : SpecialFns) (tau : ℝ) (nu : Nu) (l1 : ℝ) :
    Except PyError ℝ :=
  let x := |tau|
  if nu = Nu.str "0.0" then
    .ok (Real.exp (-(x ^ (2:ℕ)) / (2 * l1 ^ (2:ℕ))))
  else if nu = Nu.num (5/2) then do
    let a := S.bkGMdef tau l1 nu
    resolveBare "_spkv_"
    pure (a * (S.kv 2 (3 * |tau| / l1)) / Real.pi)
  else if nu = Nu.num (7/2) then
    .ok (S.bkGMdef tau l1 nu)
  else do
    let (a0, b0, c0) := S.bkGMdef3 tau l1 nu
    resolveBare "_spgamma_"
    let nuR : ℝ := match nu with | .num q => (q : ℝ) | .str _ => 0
    let a := a0 * (S.gammaFn (nuR/2 - 1/4) / S.gammaFn (nuR/2 + 1/4)) ^ ((1:ℝ)/2)
      * (S.gammaFn (nuR + 1/2) / S.gammaFn nuR) ^ ((1:ℝ)/4)
    let b := b0 / S.gammaFn (nuR/2 - 1/4)
    pure (a ^ (2:ℕ) * b * c0 ^ (nuR/2 - 1/4) * (S.kv 2 (3 * |tau| / l1)) / Real.pi)

/-- `Kernels.gdMdef(tau, nu, l1)`: the smoothness is used
arithmetically throughout, so it is numeric here.  The first statement
(`B = sp.special.kv(...)`) resolves and evaluates; the second
(`C = np.sqrt(_spgamma_(...) / _spgamma_(nu))`) references the bare
name `_spgamma_`. -/
noncomputable def gdMdef (S : SpecialFns) (tau : ℝ) (nu : ℚ) (l1 : ℝ) :
    Except PyError ℝ := do
  let b := S.kv (1/4 * (5 - 2 * (nu : ℝ)))
    (Real.sqrt 2 * Real.sqrt (nu : ℝ) * Real.sqrt (tau ^ (2:ℕ)) / l1)
  resolveBare "_spgamma_"
  let c := Real.sqrt (S.gammaFn (1/2 + (nu : ℝ)) / S.gammaFn (nu : ℝ))
  let (a, d0) := S.bkGdMdef tau l1 nu
  let d := d0 * S.gammaFn (1/4 + (nu : ℝ)/2)
  pure (a * b * c / d)

/-- The negative transpose `−Mᵗ` of a matrix, written from the spec's
words "LagMatrix(j,i) = −LagMatrix(i,j)ᵗ", to compare with what the
constructor actually stores. -/
def specNegTranspose {α : Type} [Neg α] (m : List (List α)) :
    List (List α) :=
  (m.map (fun row => row.map (fun x => -x))).transpose

/-! ### Concrete fixtures for witnesses and counterexamples -/

/-- A trivial stand-in for the abstracted `gMMdef_integrand` used in
concrete evaluations (theorems quantified over the integrand are
instantiated here). -/
def qIntegrand0 : Nat → Nat → ℚ × ℚ × ℚ → ℚ := fun _ _ _ => 0

/-- A one-task configuration (`n_Tasks = 1`, `n_points = 2`,
squared-exponential task with length-scale bounds `[0, 1]`). -/
def cfgOne : GPCfg ℚ := ⟨1, 2, [Nu.str "0.0"], [⟨0, 1⟩]⟩

/-- A two-task configuration. -/
def cfgTwo : GPCfg ℚ :=
  ⟨2, 2, [Nu.str "0.0", Nu.num (7/2)], [⟨0, 1⟩, ⟨0, 1⟩]⟩

/-- A three-task configuration. -/
def cfgThree : GPCfg ℚ :=
  ⟨3, 2, [Nu.str "0.0", Nu.str "0.0", Nu.str "0.0"],
   [⟨0, 1⟩, ⟨0, 1⟩, ⟨0, 1⟩]⟩

/-- One observation array for one task. -/
def dataOne : List (List ℚ) := [[0]]

/-- Two observation arrays (for two tasks). -/
def dataTwo : List (List ℚ) := [[0], [1]]

/-- A concrete bundle of external special functions, for witnesses. -/
noncomputable def specialFns0 : SpecialFns :=
  ⟨fun _ _ => 0, fun _ => 0, fun _ _ _ => 0, fun _ _ _ => (0, 0, 0),
   fun _ _ _ => (0, 0)⟩

/-- A numeric smoothness never equals the string sentinel. -/
theorem nu_num_ne_str (q : ℚ) (s : String) : Nu.num q ≠ Nu.str s := by
  intro h
  exact Nu.noConfusion h

/-- Distinct numeric smoothness values are distinct `Nu`s. -/
theorem nu_num_ne_num {p q : ℚ} (h : p ≠ q) : Nu.num p ≠ Nu.num q := by
  intro he
  injection he with h'
  exact h h'

/-! ### C7 — squared-exponential branch of `gMdef` -/

/-- C7: for every lag `tau` and length-scale `l1`, when the smoothness
parameter is the squared-exponential sentinel `'0.0'`, `gMdef` returns
`exp(−tau²/(2·l1²))` (whatever the external special functions are). -/
theorem gMdef_squared_exponential_formula (S : SpecialFns) (tau l1 : ℝ) :
    gMdef S tau (Nu.str "0.0") l1 =
      .ok (Real.exp (-(tau ^ (2:ℕ)) / (2 * l1 ^ (2:ℕ)))) := by
  unfold gMdef
  rw [if_pos rfl, sq_abs]

/-! ### C9 — bare-name branches raise `NameError` -/

/-- C9: the `nu == 5/2` branch of `gMdef` references the bare name
`_spkv_`, every branch other than the sentinel and `7/2` branches
references the bare name `_spgamma_`, and `gdMdef` references the bare
name `_spgamma_`; these names are bound only as class attributes, so
each of these calls raises `NameError` — only the squared-exponential
and `7/2` branches of `gMdef` can return a value. -/
theorem bare_name_branches_raise_nameerror :
    (∀ (S : SpecialFns) (tau l1 : ℝ),
      gMdef S tau (Nu.num (5/2)) l1 = .error (.nameError "_spkv_")) ∧
    (∀ (S : SpecialFns) (tau l1 : ℝ) (nu : Nu),
      nu ≠ Nu.str "0.0" → nu ≠ Nu.num (5/2) → nu ≠ Nu.num (7/2) →
      gMdef S tau nu l1 = .error (.nameError "_spgamma_")) ∧
    (∀ (S : SpecialFns) (tau : ℝ) (nu : ℚ) (l1 : ℝ),
      gdMdef S tau nu l1 = .error (.nameError "_spgamma_")) := by
  refine ⟨fun S tau l1 => ?_, fun S tau l1 nu h0 h5 h7 => ?_,
    fun S tau nu l1 => ?_⟩
  · unfold gMdef
    rw [if_neg (nu_num_ne_str _ _), if_pos rfl]
    simp [resolveBare, kernelsModuleGlobals, Bind.bind, Except.bind]
  · unfold gMdef
    rw [if_neg h0, if_neg h5, if_neg h7]
    simp [resolveBare, kernelsModuleGlobals, Bind.bind, Except.bind]
  · unfold gdMdef
    simp [resolveBare, kernelsModuleGlobals, Bind.bind, Except.bind]

/-- Witness for C9 at concrete inputs: smoothness `5/2`, a numeric
smoothness `0`, and `gdMdef` at `nu = 1`, all with concrete external
functions. -/
theorem bare_name_branches_raise_nameerror_witness :
    gMdef specialFns0 0 (Nu.num (5/2)) 1 = .error (.nameError "_spkv_") ∧
    gMdef specialFns0 0 (Nu.num 0) 1 = .error (.nameError "_spgamma_") ∧
    gdMdef specialFns0 0 1 1 = .error (.nameError "_spgamma_") :=
  ⟨bare_name_branches_raise_nameerror.1 specialFns0 0 1,
   bare_name_branches_raise_nameerror.2.1 specialFns0 0 1 (Nu.num 0)
     (nu_num_ne_str 0 "0.0") (nu_num_ne_num (by norm_num))
     (nu_num_ne_num (by norm_num)),
   bare_name_branches_raise_nameerror.2.2 specialFns0 0 1 1⟩

/-! ### C10 — the squared-exponential branch needs the exact string sentinel -/

/-- C10: the squared-exponential branch of `gMdef` is selected exactly
when the smoothness is the string `'0.0'`; the number `0.0` (like any
number other than `5/2` and `7/2`) is not recognised and falls through
to the general-Matérn branch, where `gMdef` then fails on the bare
name `_spgamma_`. -/
theorem squared_exp_branch_requires_string_sentinel :
    gMdefBranch (Nu.num 0) = GMBranch.general ∧
    (∀ nu : Nu, gMdefBranch nu = GMBranch.squaredExp ↔ nu = Nu.str "0.0") ∧
    (∀ (S : SpecialFns) (tau l1 : ℝ),
      gMdef S tau (Nu.num 0) l1 = .error (.nameError "_spgamma_")) := by
  refine ⟨?_, fun nu => ?_, fun S tau l1 => ?_⟩
  · unfold gMdefBranch
    rw [if_neg (nu_num_ne_str _ _), if_neg (nu_num_ne_num (by norm_num)),
      if_neg (nu_num_ne_num (by norm_num))]
  · unfold gMdefBranch
    constructor
    · intro h
      by_cases h0 : nu = Nu.str "0.0"
      · exact h0
      · exfalso
        rw [if_neg h0] at h
        by_cases h5 : nu = Nu.num (5/2)
        · rw [if_pos h5] at h
          exact GMBranch.noConfusion h
        · rw [if_neg h5] at h
          by_cases h7 : nu = Nu.num (7/2)
          · rw [if_pos h7] at h
            exact GMBranch.noConfusion h
          · rw [if_neg h7] at h
            exact GMBranch.noConfusion h
    · intro h
      rw [if_pos h]
  · unfold gMdef
    rw [if_neg (nu_num_ne_str _ _), if_neg (nu_num_ne_num (by norm_num)),
      if_neg (nu_num_ne_num (by norm_num))]
    simp [resolveBare, kernelsModuleGlobals, Bind.bind, Except.bind]

/-! ### C8 — `bounds_error=False`: the interpolator never raises on
out-of-domain queries -/

/-- C8: every interpolator built by `KcMM` has out-of-bounds errors
disabled, and evaluating it at any query point (one coordinate per
axis, arbitrarily far outside the fitted grid) succeeds — it
extrapolates instead of failing. -/
theorem kcmm_interpolator_no_bounds_error {α : Type} [LinearOrderedField α]
    (f : α × α × α → α) (l1v l2v tauv : List α) (x y z : α) :
    (KcMM f l1v l2v tauv).boundsError = false ∧
    ∃ v, (KcMM f l1v l2v tauv).call [QComp.s x, QComp.s y, QComp.s z] =
      .ok v := by
  exact ⟨rfl, ⟨_, rfl⟩⟩

/-! ### C2 — the data-count check precedes all grid work -/

/-- Neither branch of one pair-loop iteration can raise `ValueError`:
the `i ≤ j` branch always succeeds and the mirror branch fails only
with `KeyError`. -/
theorem initStep_ne_valueError {α : Type} [LinearOrderedField α]
    (cfg : GPCfg α) (g : Nat → Nat → α × α × α → α)
    (data : List (List α)) (i j : Nat) (st : KState α) :
    initStep cfg g data i j st ≠ .error PyError.valueError := by
  unfold initStep
  split
  · simp
  · rcases h1 : dictFind st.data_tau (tkey i j) with _ | tm
    · simp
    · rcases h2 : dictFind st.covMat (tkey i j) with _ | cm <;> simp [h2]

/-- A fold of steps that never raise `ValueError` never raises
`ValueError`. -/
theorem foldlM_ne_valueError {σ β : Type} (f : σ → β → Except PyError σ)
    (hf : ∀ s b, f s b ≠ .error PyError.valueError) (l : List β) (s : σ) :
    l.foldlM f s ≠ .error PyError.valueError := by
  induction l generalizing s with
  | nil => simp [List.foldlM, pure, Except.pure]
  | cons b t ih =>
    rw [List.foldlM_cons]
    cases h : f s b with
    | error e =>
      intro hc
      simp only [Bind.bind, Except.bind] at hc
      exact hf s b (h.trans (by rw [hc]))
    | ok s' =>
      simpa only [Bind.bind, Except.bind] using ih s'

/-- C2: if the number of supplied per-task x-axis arrays differs from
the configured task count, construction raises `ValueError` — by the
check that precedes the pair loop, for every possible integrand, so no
integration work is dispatched; if the counts agree, this error is
never raised (the pair loop can only fail with `KeyError`). -/
theorem init_validates_data_count_before_grid_build {α : Type}
    [LinearOrderedField α] (cfg : GPCfg α)
    (g : Nat → Nat → α × α × α → α) (data : List (List α)) :
    (data.length ≠ cfg.nTasks →
      kernelsInit cfg g data = .error PyError.valueError) ∧
    (data.length = cfg.nTasks →
      kernelsInit cfg g data ≠ .error PyError.valueError) := by
  constructor
  · intro h
    unfold kernelsInit
    rw [if_pos h]
  · intro h
    unfold kernelsInit
    rw [if_neg (by simp [h])]
    exact foldlM_ne_valueError _
      (fun s i => foldlM_ne_valueError _
        (fun s' j => initStep_ne_valueError cfg g data i j s') _ s) _ _

/-- Witness for C2: three configured tasks with only two data arrays
raise `ValueError`; one task with one data array does not. -/
theorem init_validates_data_count_witness :
    kernelsInit cfgThree qIntegrand0 dataTwo = .error PyError.valueError ∧
    kernelsInit cfgOne qIntegrand0 dataOne ≠ .error PyError.valueError :=
  ⟨(init_validates_data_count_before_grid_build cfgThree qIntegrand0
      dataTwo).1 (by decide),
   (init_validates_data_count_before_grid_build cfgOne qIntegrand0
      dataOne).2 (by decide)⟩

/-! ### C3 — construction crashes with `KeyError` for two or more tasks -/

/-- No key written by the first row of the pair loop (`i = 0`) is the
key `'t_10'` that iteration `(i, j) = (1, 0)` reads. -/
theorem tkey_zero_ne (j : Nat) : tkey 0 j ≠ tkey 1 0 := by
  intro h
  have hd : ("t_0" ++ toString j).data = ("t_10" : String).data :=
    congrArg String.data h
  rw [String.data_append] at hd
  simp at hd

/-- `dictInsert` preserves a predicate on keys. -/
theorem dictInsert_forall {v : Type} (P : String → Prop)
    (d : List (String × v)) (k : String) (x : v)
    (hd : ∀ p ∈ d, P p.1) (hk : P k) :
    ∀ p ∈ dictInsert d k x, P p.1 := by
  unfold dictInsert
  split
  · intro p hp
    rcases List.mem_map.1 hp with ⟨q, hq, rfl⟩
    by_cases h : q.1 = k
    · simpa [h] using hk
    · simpa [h] using hd q hq
  · intro p hp
    rcases List.mem_append.1 hp with h | h
    · exact hd p h
    · rcases List.mem_singleton.1 h with rfl
      exact hk

/-- Row `i = 0` of the pair loop always succeeds (every `j` satisfies
`0 ≤ j`), and every lag-matrix key it stores has the form
`'t_0{j}'`. -/
theorem row_zero_fold {α : Type} [LinearOrderedField α] (cfg : GPCfg α)
    (g : Nat → Nat → α × α × α → α) (data : List (List α)) :
    ∀ (js : List Nat) (st : KState α),
      (∀ p ∈ st.data_tau, ∃ j, p.1 = tkey 0 j) →
      ∃ st', js.foldlM (fun st j => initStep cfg g data 0 j st) st
          = .ok st' ∧
        (∀ p ∈ st'.data_tau, ∃ j, p.1 = tkey 0 j) := by
  intro js
  induction js with
  | nil =>
    intro st hP
    exact ⟨st, by simp [List.foldlM_nil, pure, Except.pure], hP⟩
  | cons j t ih =>
    intro st hP
    rw [List.foldlM_cons]
    have hstep : initStep cfg g data 0 j st =
        .ok { st with
          covMat := dictInsert st.covMat (tkey 0 j)
            (KcMM (g 0 j)
              (linspace (cfg.tasks.getD 0 ⟨0, 0⟩).lmin
                (cfg.tasks.getD 0 ⟨0, 0⟩).lmax cfg.nPoints)
              (linspace (cfg.tasks.getD j ⟨0, 0⟩).lmin
                (cfg.tasks.getD j ⟨0, 0⟩).lmax cfg.nPoints)
              (linspace (-10) 10 cfg.nPoints))
          data_tau := dictInsert st.data_tau (tkey 0 j)
            (lagMat (data.getD 0 []) (data.getD j [])) } := by
      unfold initStep
      rw [if_pos (Nat.zero_le j)]
    rw [hstep]
    have hbind : ∀ (x : KState α)
        (k : KState α → Except PyError (KState α)),
        (Except.ok x >>= k) = k x := fun _ _ => rfl
    rw [hbind]
    exact ih _ (dictInsert_forall (fun s => ∃ j, s = tkey 0 j) _ _ _ hP
      ⟨j, rfl⟩)

/-- At iteration `(i, j) = (1, 0)` the mirror branch reads
`self.data_tau['t_10']`, a key the loop has never stored, and raises
`KeyError`. -/
theorem initStep_one_zero_keyerror {α : Type} [LinearOrderedField α]
    (cfg : GPCfg α) (g : Nat → Nat → α × α × α → α)
    (data : List (List α)) (st : KState α)
    (hP : ∀ p ∈ st.data_tau, ∃ j, p.1 = tkey 0 j) :
    initStep cfg g data 1 0 st = .error (.keyError (tkey 1 0)) := by
  unfold initStep
  rw [if_neg (by omega)]
  have hfind : dictFind st.data_tau (tkey 1 0) = none := by
    unfold dictFind
    rw [List.find?_eq_none.2]
    · rfl
    · intro p hp
      rcases hP p hp with ⟨j, hj⟩
      simp [hj, tkey_zero_ne j]
  rw [hfind]

/-- C3: with matching data, a `Kernels` object can be constructed
exactly when the configured task count is one; for two or more tasks
the constructor raises `KeyError('t_10')` at the first ordered pair
with `i > j`, because only keys with `i ≤ j` were ever stored. -/
theorem constructible_iff_single_task {α : Type} [LinearOrderedField α]
    (cfg : GPCfg α) (g : Nat → Nat → α × α × α → α)
    (data : List (List α)) (hlen : data.length = cfg.nTasks)
    (hpos : 1 ≤ cfg.nTasks) :
    ((kernelsInit cfg g data).isOk ↔ cfg.nTasks = 1) ∧
    (2 ≤ cfg.nTasks →
      kernelsInit cfg g data = .error (.keyError (tkey 1 0))) := by
  have hcrash : 2 ≤ cfg.nTasks →
      kernelsInit cfg g data = .error (.keyError (tkey 1 0)) := by
    intro h2
    obtain ⟨m, hm⟩ : ∃ m, cfg.nTasks = m + 2 := ⟨cfg.nTasks - 2, by omega⟩
    have hr : List.range cfg.nTasks =
        0 :: 1 :: ((List.range m).map Nat.succ).map Nat.succ := by
      rw [hm, List.range_succ_eq_map, List.range_succ_eq_map]
      simp [List.map_cons]
    unfold kernelsInit
    rw [if_neg (by simp [hlen]), hr, List.foldlM_cons]
    obtain ⟨st0, hst0, hkeys⟩ := row_zero_fold cfg g data
      (0 :: 1 :: ((List.range m).map Nat.succ).map Nat.succ)
      ⟨cfg.nTasks, [], []⟩ (by intro p hp; exact absurd hp (by simp))
    rw [hst0]
    have hbind : ∀ (x : KState α)
        (k : KState α → Except PyError (KState α)),
        (Except.ok x >>= k) = k x := fun _ _ => rfl
    rw [hbind, List.foldlM_cons]
    rw [show List.foldlM
        (fun st j => initStep cfg g data 1 j st) st0
        (0 :: 1 :: ((List.range m).map Nat.succ).map Nat.succ) =
        Except.error (.keyError (tkey 1 0)) from by
      rw [List.foldlM_cons, initStep_one_zero_keyerror cfg g data st0 hkeys]
      rfl]
    rfl
  refine ⟨?_, hcrash⟩
  constructor
  · intro hok
    by_contra hne
    have h2 : 2 ≤ cfg.nTasks := by omega
    rw [hcrash h2] at hok
    exact Bool.noConfusion hok
  · intro h1
    have hr : List.range cfg.nTasks = [0] := by
      rw [h1]
      rfl
    unfold kernelsInit
    rw [if_neg (by simp [hlen]), hr, List.foldlM_cons]
    obtain ⟨st0, hst0, _⟩ := row_zero_fold cfg g data [0]
      ⟨cfg.nTasks, [], []⟩ (by intro p hp; exact absurd hp (by simp))
    rw [hst0]
    rfl

/-- Witness for C3: one task constructs; two tasks crash with
`KeyError('t_10')`. -/
theorem constructible_iff_single_task_witness :
    ((kernelsInit cfgOne qIntegrand0 dataOne).isOk ↔ cfgOne.nTasks = 1) ∧
    kernelsInit cfgTwo qIntegrand0 dataTwo =
      .error (.keyError (tkey 1 0)) :=
  ⟨(constructible_iff_single_task cfgOne qIntegrand0 dataOne rfl
      (by decide)).1,
   (constructible_iff_single_task cfgTwo qIntegrand0 dataTwo rfl
      (by decide)).2 (by decide)⟩

/-! ### C4 — the mirror lag matrix is a plain copy, not `−Mᵗ`, and the
constructor crashes before storing it -/

/-- A probe state in which the key `'t_10'` read by iteration
`(1, 0)` happens to exist, to exhibit what the mirror branch would
store. -/
def mirrorProbe : KState ℚ :=
  ⟨2, [(tkey 1 0, KcMM (qIntegrand0 1 0) [] [] [])],
   [(tkey 1 0, [[5]])]⟩

/-- C4 (code bug): on a two-task configuration the constructor raises
`KeyError('t_10')`, so no mirror lag matrix is ever stored; and even
where the read succeeds (probe state), the mirror branch stores the
`(i,j)` lag matrix unchanged under the swapped key — not the negative
transpose `−Mᵗ` the spec prescribes. -/
theorem lag_mirror_copied_not_negated :
    kernelsInit cfgTwo qIntegrand0 dataTwo =
      .error (.keyError (tkey 1 0)) ∧
    (∃ st', initStep cfgTwo qIntegrand0 dataTwo 1 0 mirrorProbe =
        .ok st' ∧ dictFind st'.data_tau (tkey 0 1) = some [[5]]) ∧
    specNegTranspose [[(5:ℚ)]] = [[-5]] ∧
    ([[(5:ℚ)]] : List (List ℚ)) ≠ specNegTranspose [[(5:ℚ)]] := by
  exact ⟨rfl, ⟨_, rfl, rfl⟩, rfl, by decide⟩

/-! ### C5 — the call-time evaluation never validates the parameter
matrix shape: extra rows are silently ignored -/

/-- Reading a row below the truncation point is unaffected by
`take`. -/
theorem parsGet_take {α : Type} [LinearOrderedField α]
    (pars : List (List α)) (n i k : Nat) (h : i < n) :
    parsGet (pars.take n) i k = parsGet pars i k := by
  unfold parsGet
  rw [List.getElem?_take_of_lt h]

/-- A block of `__call__` only reads parameter rows `i, j`, so it
cannot see rows beyond `nTasks`. -/
theorem callBlock_take {α : Type} [LinearOrderedField α]
    (st : KState α) (pars : List (List α)) (i j : Nat)
    (hi : i < st.nTasks) (hj : j < st.nTasks) :
    callBlock st (pars.take st.nTasks) i j = callBlock st pars i j := by
  unfold callBlock
  rw [parsGet_take pars st.nTasks i 0 hi, parsGet_take pars st.nTasks j 0 hj,
    parsGet_take pars st.nTasks i 1 hi, parsGet_take pars st.nTasks j 1 hj]

/-- `mapM` only depends on the function's values on the list. -/
theorem mapM_congr_except {β γ : Type} (f h : β → Except PyError γ)
    (l : List β) (he : ∀ b ∈ l, f b = h b) : l.mapM f = l.mapM h := by
  induction l with
  | nil => rfl
  | cons b t ih =>
    rw [List.mapM_cons, List.mapM_cons, he b (List.mem_cons_self b t),
      ih (fun x hx => he x (List.mem_cons_of_mem b hx))]

/-- C5 (amended): `__call__` performs no task-dimension check on the
parameter matrix — its result is the same as on the matrix truncated
to the first `nTasks` rows, because rows are only ever read at indices
below `nTasks`. -/
theorem call_ignores_rows_beyond_nTasks {α : Type} [LinearOrderedField α]
    (st : KState α) (pars : List (List α)) :
    kernelsCall st pars = kernelsCall st (pars.take st.nTasks) := by
  unfold kernelsCall
  have h : (List.range st.nTasks).mapM
      (fun j => (List.range st.nTasks).mapM
        (fun i => callBlock st (pars.take st.nTasks) i j)) =
      (List.range st.nTasks).mapM
      (fun j => (List.range st.nTasks).mapM
        (fun i => callBlock st pars i j)) :=
    mapM_congr_except _ _ _ (fun j hj =>
      mapM_congr_except _ _ _ (fun i hi =>
        callBlock_take st pars i j (List.mem_range.1 hi)
          (List.mem_range.1 hj)))
  rw [h]

/-- C5 (counterexample to the claim): on the one constructible
assembler, a parameter matrix with two rows — disagreeing with the
single configured task — is treated exactly like its first row alone:
no mismatch-specific fatal input error distinguishes it. -/
theorem call_shape_mismatch_counterexample :
    (kernelsInit cfgOne qIntegrand0 dataOne >>=
      fun st => kernelsCall st [[1, 1], [9, 9]]) =
    (kernelsInit cfgOne qIntegrand0 dataOne >>=
      fun st => kernelsCall st [[1, 1]]) ∧
    ([[(1:ℚ), 1], [9, 9]] : List (List ℚ)).length ≠ cfgOne.nTasks :=
  ⟨rfl, by decide⟩

/-! ### C1 — the call-time evaluation can never return a covariance
matrix at all -/

/-- The state of the only constructible assembler shape (one task). -/
def stOne : KState ℚ :=
  ⟨1, [(tkey 0 0, KcMM (qIntegrand0 0 0) (linspace 0 1 2)
        (linspace 0 1 2) (linspace (-10) 10 2))],
   [(tkey 0 0, lagMat [0] [0])]⟩

/-- Block `(0,0)` of `__call__` always fails: whatever the parameters,
the interpolator is handed the two-component query
`[l·l, lag-matrix]` against its three coordinate axes, and rejects
it (when the parameter row reads fail first, that is an error too). -/
theorem callBlock_zero_errors {α : Type} [LinearOrderedField α]
    (st : KState α) (pars : List (List α)) (itp : RGInterp α)
    (tm : List (List α))
    (hcov : dictFind st.covMat (tkey 0 0) = some itp)
    (htau : dictFind st.data_tau (tkey 0 0) = some tm) :
    ∃ e, callBlock st pars 0 0 = .error e := by
  unfold callBlock
  cases h1 : parsGet pars 0 0 with
  | error e => exact ⟨e, by simp [h1, Bind.bind, Except.bind]⟩
  | ok p00 =>
    cases h2 : parsGet pars 0 1 with
    | error e =>
      exact ⟨e, by simp [h1, h2, hcov, Bind.bind, Except.bind]⟩
    | ok p01 =>
      have hcall : itp.call [QComp.s (p01 * p01), QComp.m tm] =
          .error .valueError := by
        unfold RGInterp.call
        rw [if_neg]
        rintro ⟨-, hs⟩
        simp [allScalar] at hs
      exact ⟨.valueError,
        by simp [h1, h2, hcov, htau, hcall, Bind.bind, Except.bind]⟩

/-- On a one-task state, `__call__` propagates the block failure. -/
theorem kernelsCall_single_task_errors {α : Type} [LinearOrderedField α]
    (st : KState α) (pars : List (List α)) (itp : RGInterp α)
    (tm : List (List α)) (h1 : st.nTasks = 1)
    (hcov : dictFind st.covMat (tkey 0 0) = some itp)
    (htau : dictFind st.data_tau (tkey 0 0) = some tm) :
    ∃ e, kernelsCall st pars = .error e := by
  obtain ⟨e, he⟩ := callBlock_zero_errors st pars itp tm hcov htau
  refine ⟨e, ?_⟩
  unfold kernelsCall
  rw [h1]
  rw [show List.range 1 = [0] from rfl]
  simp [List.mapM.loop, he, Bind.bind, Except.bind]

/-- C1 (code bug): for the one constructible configuration shape, the
covariance evaluation returns an error for every parameter matrix — a
covariance matrix is never assembled (and for two or more tasks even
construction fails, `constructible_iff_single_task`). -/
theorem covariance_call_never_returns (pars : List (List ℚ)) :
    ∃ e, (kernelsInit cfgOne qIntegrand0 dataOne >>=
      fun st => kernelsCall st pars) = .error e := by
  rw [show kernelsInit cfgOne qIntegrand0 dataOne = .ok stOne from rfl]
  show ∃ e, kernelsCall stOne pars = .error e
  exact kernelsCall_single_task_errors stOne pars _ _ rfl rfl rfl

/-! ### C6 — the parallel grid build is order-independent and
row-major -/

/-- After a fold of slot writes, slot `i` holds the written value
exactly when `i` was dispatched (last write wins; all writes to `i`
carry the same value). -/
theorem foldl_set_getElem {β : Type} (order : List Nat) (v : Nat → Option β)
    (init : List (Option β)) (i : Nat) :
    (order.foldl (fun acc k => acc.set k (v k)) init)[i]? =
      if i ∈ order ∧ i < init.length then some (v i) else init[i]? := by
  induction order generalizing init with
  | nil => simp
  | cons k t ih =>
    rw [List.foldl_cons, ih, List.length_set]
    by_cases hmem : i ∈ t ∧ i < init.length
    · simp [hmem, List.mem_cons]
    · rw [if_neg hmem]
      by_cases hk : i = k
      · subst hk
        by_cases hlen : i < init.length
        · rw [List.getElem?_set_self']
          rw [List.getElem?_eq_getElem hlen]
          simp [hlen, List.mem_cons]
        · rw [if_neg (by tauto), List.getElem?_set_self',
            List.getElem?_eq_none (by omega)]
          rfl
      · rw [List.getElem?_set_ne (by omega)]
        rw [if_neg (by rw [List.mem_cons]; tauto)]

/-- Whatever order the workers complete in, `pool.map`'s result list
is the sequential map, because each result lands at its dispatch
index. -/
theorem applyCompletion_eq_map {α β : Type} (f : α → β) (xs : List α)
    (order : List Nat) (hperm : order.Perm (List.range xs.length)) :
    applyCompletion f xs order = (xs.map f).map some := by
  apply List.ext_getElem?
  intro i
  unfold applyCompletion
  rw [foldl_set_getElem]
  rw [List.length_replicate]
  by_cases hi : i < xs.length
  · have hmem : i ∈ order := hperm.mem_iff.2 (List.mem_range.2 hi)
    rw [if_pos ⟨hmem, hi⟩]
    rw [List.getElem?_map, List.getElem?_map, List.getElem?_eq_getElem hi]
    rfl
  · rw [if_neg (by tauto), List.getElem?_replicate]
    rw [List.getElem?_map, List.getElem?_map,
      List.getElem?_eq_none (by omega)]
    simp [hi]

/-- Length of the two inner product levels. -/
theorem inner_length {α β : Type} (ys zs : List α) (g : α → α → β) :
    (ys.flatMap (fun y => zs.map (g y))).length = ys.length * zs.length := by
  induction ys with
  | nil => simp
  | cons y t ih =>
    simp only [List.flatMap_cons, List.length_append, List.length_map, ih,
      List.length_cons]
    ring

/-- Indexing the two inner product levels: entry `b·|zs| + c` is
`g ys[b] zs[c]`. -/
theorem inner_getElem {α β : Type} (ys zs : List α) (g : α → α → β)
    (b c : Nat) (hb : b < ys.length) (hc : c < zs.length) :
    (ys.flatMap (fun y => zs.map (g y)))[b * zs.length + c]? =
      some (g (ys.get ⟨b, hb⟩) (zs.get ⟨c, hc⟩)) := by
  induction ys generalizing b with
  | nil => simp at hb
  | cons y t ih =>
    rw [List.flatMap_cons]
    cases b with
    | zero =>
      rw [List.getElem?_append_left (by simpa using hc)]
      rw [List.getElem?_map]
      simp only [Nat.zero_mul, Nat.zero_add]
      rw [List.getElem?_eq_getElem hc]
      rfl
    | succ b' =>
      have hlen : (zs.map (g y)).length = zs.length := List.length_map zs _
      rw [List.getElem?_append_right (by rw [hlen, Nat.succ_mul]; omega)]
      have harith : (b' + 1) * zs.length + c - (zs.map (g y)).length =
          b' * zs.length + c := by
        rw [hlen, Nat.succ_mul]
        omega
      rw [harith]
      have hb' : b' < t.length := by
        have := hb
        simp only [List.length_cons] at this
        omega
      rw [ih b' hb']
      rfl

/-- `itertools.product` enumerates `|xs|·|ys|·|zs|` coordinates. -/
theorem prod3_length {α : Type} (xs ys zs : List α) :
    (prod3 xs ys zs).length = xs.length * ys.length * zs.length := by
  unfold prod3
  induction xs with
  | nil => simp
  | cons x t ih =>
    simp only [List.flatMap_cons, List.length_append, ih, List.length_cons,
      inner_length]
    ring

/-- Row-major indexing of `itertools.product`: flat entry
`a·(|ys|·|zs|) + b·|zs| + c` is the coordinate triple
`(xs[a], ys[b], zs[c])`. -/
theorem prod3_getElem {α : Type} (xs ys zs : List α) (a b c : Nat)
    (ha : a < xs.length) (hb : b < ys.length) (hc : c < zs.length) :
    (prod3 xs ys zs)[a * (ys.length * zs.length) + (b * zs.length + c)]? =
      some (xs.get ⟨a, ha⟩, ys.get ⟨b, hb⟩, zs.get ⟨c, hc⟩) := by
  induction xs generalizing a with
  | nil => simp at ha
  | cons x t ih =>
    rw [show prod3 (x :: t) ys zs =
      (ys.flatMap (fun b => zs.map (fun c => (x, b, c)))) ++ prod3 t ys zs
      from rfl]
    cases a with
    | zero =>
      have hbound : b * zs.length + c < ys.length * zs.length := by
        calc b * zs.length + c < b * zs.length + zs.length := by omega
        _ = (b + 1) * zs.length := by rw [Nat.succ_mul]
        _ ≤ ys.length * zs.length := Nat.mul_le_mul_right _ hb
      rw [List.getElem?_append_left (by
        rw [inner_length]
        simpa using hbound)]
      simp only [Nat.zero_mul, Nat.zero_add]
      rw [inner_getElem ys zs _ b c hb hc]
      rfl
    | succ a' =>
      have hlen : (ys.flatMap (fun b => zs.map (fun c => (x, b, c)))).length =
          ys.length * zs.length := inner_length ys zs _
      rw [List.getElem?_append_right (by rw [hlen, Nat.succ_mul]; omega)]
      have harith : (a' + 1) * (ys.length * zs.length) + (b * zs.length + c) -
          (ys.flatMap (fun b => zs.map (fun c => (x, b, c)))).length =
          a' * (ys.length * zs.length) + (b * zs.length + c) := by
        rw [hlen, Nat.succ_mul]
        omega
      rw [harith]
      have ha' : a' < t.length := by
        have := ha
        simp only [List.length_cons] at this
        omega
      rw [ih a' ha']
      rfl

/-- C6: for every integrand and all coordinate arrays, the dense array
produced by the parallel grid build equals the sequential enumeration
for every worker completion order, and entry `(a, b, c)` of the
reshaped array is the integrand at
`(tau_values[a], l2_values[b], l1_values[c])` — row-major over lag,
then `l2`, then `l1`.  Two builds with the same coordinates therefore
yield identical arrays. -/
theorem grid_build_order_independent {α β : Type} [Inhabited β]
    (f : α × α × α → β) (tauv l2v l1v : List α) (order : List Nat)
    (hperm : order.Perm
      (List.range (tauv.length * l2v.length * l1v.length))) :
    applyCompletion f (prod3 tauv l2v l1v) order =
      (kcmmGrid f tauv l2v l1v).map some ∧
    ∀ (a b c : Nat) (ha : a < tauv.length) (hb : b < l2v.length)
      (hc : c < l1v.length),
      gridEntry (kcmmGrid f tauv l2v l1v) l2v.length l1v.length a b c =
        f (tauv.get ⟨a, ha⟩, l2v.get ⟨b, hb⟩, l1v.get ⟨c, hc⟩) := by
  constructor
  · exact applyCompletion_eq_map f _ order
      (by rw [prod3_length]; exact hperm)
  · intro a b c ha hb hc
    unfold gridEntry kcmmGrid
    rw [List.getD_eq_getElem?_getD]
    rw [show a * l2v.length * l1v.length + b * l1v.length + c =
      a * (l2v.length * l1v.length) + (b * l1v.length + c) from by ring]
    rw [List.getElem?_map, prod3_getElem tauv l2v l1v a b c ha hb hc]
    rfl

/-- A concrete integrand stand-in for the C6 witness. -/
def gridW : Nat × Nat × Nat → Nat := fun p => 100 * p.1 + 10 * p.2.1 + p.2.2

/-- Witness for C6: a 2×1×2 grid built with completion order
`[3, 0, 2, 1]` equals the sequential build, and entry `(1, 0, 1)` is
the integrand at `(tau[1], l2[0], l1[1])`. -/
theorem grid_build_order_independent_witness :
    applyCompletion gridW (prod3 [1, 2] [3] [4, 5]) [3, 0, 2, 1] =
      (kcmmGrid gridW [1, 2] [3] [4, 5]).map some ∧
    gridEntry (kcmmGrid gridW [1, 2] [3] [4, 5]) 1 2 1 0 1 =
      gridW (2, 3, 5) := by
  have h := grid_build_order_independent gridW [1, 2] [3] [4, 5] [3, 0, 2, 1]
    (by decide)
  exact ⟨h.1, h.2 1 0 1 (by decide) (by decide) (by decide)⟩

end Marcia
